import Mathlib

/-!
# Al-Madina Press backend: a shallow embedding of `server.js`

The HTTP handlers of `src/server.js` are embedded as pure functions over an
explicit store (the three document collections) and an explicit file system.

Modelling conventions

* A JSON request field is absent (`undefined`), `null`, a boolean or a string.
* The document collections are lists in insertion order; a lookup returns the
  first match.
* `ObjectId` is a 12-byte identifier written as 24 hexadecimal digits.
* The Mongoose operations used by the handlers (`save`, `findById`,
  `findByIdAndUpdate`, `findByIdAndDelete`, `findOne`, `deleteMany`) follow the
  documented behaviour of Mongoose 6 and later: `save` runs the schema
  validators, update operations apply casting and setters but no validators,
  and keys whose value is `undefined` are stripped from an update.
* Clock readings, fresh identifiers and the server directory are arguments.
-/

namespace AlMadina

/-! ## JSON values and responses -/

/-- JSON value of a request or response field. -/
inductive JVal where
  | undefined
  | null
  | bool (b : Bool)
  | str (s : String)
  deriving DecidableEq, Repr

/-- JavaScript truthiness. -/
def JVal.truthy : JVal → Bool
  | .undefined => false
  | .null => false
  | .bool b => b
  | .str s => decide (s ≠ "")

/-- JavaScript `a || b`. -/
def JVal.orElse (a b : JVal) : JVal := if a.truthy then a else b

/-- Stored string path read back as a JSON value (`none` is `null`). -/
def optJ : Option String → JVal
  | none => .null
  | some s => .str s

/-- Body passed to `res.json`: an object or an array of objects. -/
inductive Body where
  | obj (fields : List (String × JVal))
  | arr (items : List (List (String × JVal)))
  deriving DecidableEq, Repr

/-- Value of a field of an object body. -/
def Body.field (b : Body) (k : String) : Option JVal :=
  match b with
  | .obj fs => (fs.find? (fun p => p.1 == k)).map Prod.snd
  | .arr _ => none

/-- HTTP response: status code and JSON body. -/
structure Response where
  status : Nat
  body : Body
  deriving DecidableEq, Repr

/-- Response of `res.json(o)`: status 200. -/
def resJson (fields : List (String × JVal)) : Response := ⟨200, .obj fields⟩

/-- Response of `res.status(c).json(o)`. -/
def resStatusJson (c : Nat) (fields : List (String × JVal)) : Response := ⟨c, .obj fields⟩

/-- Response of `res.status(c).json` with a single `error` field. -/
def resError (c : Nat) (msg : String) : Response := resStatusJson c [("error", .str msg)]

/-! ## String helpers (JavaScript `String.prototype`) -/

/-- Test that `p` begins `s`. -/
def startsWith : List Char → List Char → Bool
  | _, [] => true
  | [], _ :: _ => false
  | c :: cs, p :: ps => c == p && startsWith cs ps

/-- `s.includes(sub)` on character lists. -/
def includesL : List Char → List Char → Bool
  | [], sub => sub.isEmpty
  | c :: cs, sub => startsWith (c :: cs) sub || includesL cs sub

/-- `s.includes(sub)`. -/
def jsIncludes (s sub : String) : Bool := includesL s.data sub.data

/-- `s.replace(pat, rep)` with a string pattern: the first occurrence only. -/
def replaceFirstL (pat rep : List Char) : List Char → List Char
  | [] => if pat.isEmpty then rep else []
  | c :: cs =>
    if startsWith (c :: cs) pat then rep ++ (c :: cs).drop pat.length
    else c :: replaceFirstL pat rep cs

/-- `s.replace(pat, rep)`. -/
def jsReplace (s pat rep : String) : String := String.mk (replaceFirstL pat.data rep.data s.data)

/-- White space and line terminators stripped by `String.prototype.trim`. -/
def jsWhite (c : Char) : Bool :=
  let n := c.toNat
  n == 0x09 || n == 0x0A || n == 0x0B || n == 0x0C || n == 0x0D || n == 0x20 ||
  n == 0xA0 || n == 0x1680 || (0x2000 ≤ n && n ≤ 0x200A) || n == 0x2028 ||
  n == 0x2029 || n == 0x202F || n == 0x205F || n == 0x3000 || n == 0xFEFF

/-- `s.trim()`. -/
def jsTrim (s : String) : String :=
  String.mk ((s.data.dropWhile jsWhite).reverse.dropWhile jsWhite).reverse

/-- ASCII lower-casing of one character. -/
def lowerChar (c : Char) : Char :=
  if 65 ≤ c.toNat ∧ c.toNat ≤ 90 then Char.ofNat (c.toNat + 32) else c

/-- `s.toLowerCase()` on the ASCII letters. The characters outside ASCII are
left as they are; none of them lower-cases to a run of letters that could
complete one of the tokens tested by the upload filter. -/
def jsLower (s : String) : String := String.mk (s.data.map lowerChar)

/-! ## Object identifiers -/

/-- Twelve-byte document identifier, kept as its 24 hexadecimal digits. -/
structure ObjectId where
  nibbles : List (Fin 16)
  len : nibbles.length = 24
  deriving DecidableEq

/-- Hexadecimal digit of a nibble, lower case. -/
def hexDigit (n : Fin 16) : Char :=
  "0123456789abcdef".data.getD n.val '0'

/-- Nibble of a hexadecimal digit, either case. -/
def parseHexDigit (c : Char) : Option (Fin 16) :=
  let n := c.toNat
  if h : 48 ≤ n ∧ n ≤ 57 then some ⟨n - 48, by omega⟩
  else if h : 97 ≤ n ∧ n ≤ 102 then some ⟨n - 87, by omega⟩
  else if h : 65 ≤ n ∧ n ≤ 70 then some ⟨n - 55, by omega⟩
  else none

/-- Nibbles of a string of hexadecimal digits. -/
def parseHexList : List Char → Option (List (Fin 16))
  | [] => some []
  | c :: cs =>
    match parseHexDigit c, parseHexList cs with
    | some n, some ns => some (n :: ns)
    | _, _ => none

/-- `_id.toString()`: the 24 lower-case hexadecimal digits. -/
def ObjectId.toHex (o : ObjectId) : String := String.mk (o.nibbles.map hexDigit)

/-- Cast of a string to `ObjectId`: exactly 24 hexadecimal digits, else a
cast error (`none`). -/
def castObjectId (s : String) : Option ObjectId :=
  match parseHexList s.data with
  | some l => if h : l.length = 24 then some ⟨l, h⟩ else none
  | none => none

/-! ## Schema casting -/

/-- Mongoose cast of a JSON value to a `String` path: `undefined` and `null`
pass through (`none` stands for both once stored), a boolean is written out. -/
def castString : JVal → Option String
  | .undefined => none
  | .null => none
  | .bool b => some (if b then "true" else "false")
  | .str s => some s

/-- The `trim: true` setter followed by the cast. -/
def castTrim (v : JVal) : Option String := (castString v).map jsTrim

/-- The `required: true` validator of a `String` path: a non-empty string. -/
def requiredOk : Option String → Bool
  | none => false
  | some s => decide (s ≠ "")

/-- The `enum` of `portfolioSchema.category`. -/
def categoryEnum : List String :=
  ["حلويات ومعارض", "شركات أدوية", "مراكز أشعة", "كتب وأغلفة"]

/-- The `enum` validator: passes on `null`, else membership. -/
def enumOk : Option String → Bool
  | none => true
  | some s => decide (s ∈ categoryEnum)

/-! ## Portfolio documents -/

/-- Document of the `Portfolio` collection (`portfolioSchema`); `none` in a
string path is `null`. -/
structure PortfolioDoc where
  _id : ObjectId
  title : Option String
  category : Option String
  image : Option String
  description : Option String
  details : Option String
  date : Option String
  createdAt : Nat
  deriving DecidableEq

/-- Body of `POST /api/portfolio`. -/
structure CreateBody where
  title : JVal
  category : JVal
  image : JVal
  description : JVal
  details : JVal
  date : JVal
  deriving DecidableEq

/-- Body of `PUT /api/portfolio/:id`. -/
structure UpdateBody where
  title : JVal
  category : JVal
  image : JVal
  description : JVal
  details : JVal
  deriving DecidableEq

/-- What the handler reads from its surroundings when it creates a document. -/
structure Env where
  newId : ObjectId
  now : Nat
  today : String
  deriving DecidableEq

/-- The public shape of a portfolio item, as every portfolio handler builds it. -/
def publicItem (d : PortfolioDoc) : List (String × JVal) :=
  [("id", .str d._id.toHex), ("title", optJ d.title), ("category", optJ d.category),
   ("image", optJ d.image), ("description", optJ d.description),
   ("details", optJ d.details), ("date", optJ d.date)]

/-- `Model.findById` on a cast identifier: the first document with that `_id`. -/
def findDoc (store : List PortfolioDoc) (oid : ObjectId) : Option PortfolioDoc :=
  store.find? (fun d => decide (d._id = oid))

/-- The document `new Portfolio(...)` of the create handler. -/
def newPortfolio (env : Env) (b : CreateBody) : PortfolioDoc :=
  { _id := env.newId
    title := castTrim b.title
    category := castString b.category
    image := castString b.image
    description := castString (b.description.orElse (.str ""))
    details := castString (b.details.orElse (.str ""))
    date := castString (b.date.orElse (.str env.today))
    createdAt := env.now }

/-- Schema validation run by `save`. -/
def validatePortfolio (d : PortfolioDoc) : Bool :=
  requiredOk d.title && requiredOk d.category && enumOk d.category && requiredOk d.image

/-- `doc.save()` of a new document: validation, then insertion, which the
unique index on `_id` refuses for an identifier already stored. -/
def savePortfolio (store : List PortfolioDoc) (d : PortfolioDoc) :
    Except String (PortfolioDoc × List PortfolioDoc) :=
  if validatePortfolio d then
    if (findDoc store d._id).isSome then .error "E11000 duplicate key"
    else .ok (d, store ++ [d])
  else .error "ValidationError"

/-- Handler `app.post('/api/portfolio')`. -/
def createPortfolio (env : Env) (store : List PortfolioDoc) (b : CreateBody) :
    Response × List PortfolioDoc :=
  match savePortfolio store (newPortfolio env b) with
  | .ok (saved, store') => (resStatusJson 201 (publicItem saved), store')
  | .error _ => (resError 500 "حدث خطأ أثناء إضافة المنتج", store)

/-- Handler `app.get('/api/portfolio/:id')`. -/
def getPortfolio (store : List PortfolioDoc) (id : String) : Response :=
  match castObjectId id with
  | none => resError 500 "حدث خطأ أثناء جلب المنتج"
  | some oid =>
    match findDoc store oid with
    | none => resError 404 "المنتج غير موجود"
    | some item => resJson (publicItem item)

/-! ## First-match operations on a collection -/

/-- Replace the first element satisfying `p` by its image under `f`; returns
the new element (`none` when nothing matches) and the new list. -/
def updateFirst {α : Type} (p : α → Bool) (f : α → α) : List α → Option α × List α
  | [] => (none, [])
  | d :: ds =>
    if p d then (some (f d), f d :: ds)
    else ((updateFirst p f ds).1, d :: (updateFirst p f ds).2)

/-- Remove the first element satisfying `p`; returns it (`none` when nothing
matches) and the new list. -/
def removeFirst {α : Type} (p : α → Bool) : List α → Option α × List α
  | [] => (none, [])
  | d :: ds =>
    if p d then (some d, ds)
    else ((removeFirst p ds).1, d :: (removeFirst p ds).2)

/-! ## Portfolio update -/

/-- The update `{ title, category, image, description, details }` applied to a
document: a key whose value is `undefined` is stripped from the update, the
others are cast (through the `trim` setter for `title`) and set. No validator
runs. -/
def applyUpdate (b : UpdateBody) (d : PortfolioDoc) : PortfolioDoc :=
  { d with
    title := if b.title = .undefined then d.title else castTrim b.title
    category := if b.category = .undefined then d.category else castString b.category
    image := if b.image = .undefined then d.image else castString b.image
    description := if b.description = .undefined then d.description else castString b.description
    details := if b.details = .undefined then d.details else castString b.details }

/-- Handler `app.put('/api/portfolio/:id')`. -/
def updatePortfolio (store : List PortfolioDoc) (id : String) (b : UpdateBody) :
    Response × List PortfolioDoc :=
  match castObjectId id with
  | none => (resError 500 "حدث خطأ أثناء تحديث المنتج", store)
  | some oid =>
    match updateFirst (fun d => decide (d._id = oid)) (applyUpdate b) store with
    | (none, _) => (resError 404 "المنتج غير موجود", store)
    | (some updatedItem, store') => (resJson (publicItem updatedItem), store')

/-! ## Paths (`path.posix`) -/

/-- Split at every `/`. -/
def splitSlash : List Char → List (List Char)
  | [] => [[]]
  | c :: cs =>
    match splitSlash cs with
    | [] => [[]]
    | s :: ss => if c = '/' then [] :: s :: ss else (c :: s) :: ss

/-- One segment of `normalizeString`; `res` holds the kept segments, the last
one first. -/
def normStep (allowAboveRoot : Bool) (res : List (List Char)) (seg : List Char) :
    List (List Char) :=
  if seg = [] ∨ seg = ['.'] then res
  else if seg = ['.', '.'] then
    match res with
    | [] => if allowAboveRoot then [seg] else []
    | r :: rs =>
      if r = ['.', '.'] then (if allowAboveRoot then seg :: r :: rs else r :: rs) else rs
  else seg :: res

/-- Join segments with `/`. -/
def joinSlash : List (List Char) → List Char
  | [] => []
  | [s] => s
  | s :: t :: ts => s ++ '/' :: joinSlash (t :: ts)

/-- `path.normalize`. -/
def pathNormalizeL (p : List Char) : List Char :=
  if p = [] then ['.']
  else
    let isAbsolute := p.head? = some '/'
    let trailingSeparator := p.getLast? = some '/'
    let body := joinSlash ((splitSlash p).foldl (normStep (!isAbsolute)) []).reverse
    if body = [] then
      if isAbsolute then ['/'] else if trailingSeparator then ['.', '/'] else ['.']
    else
      (if isAbsolute then ['/'] else []) ++ body ++ (if trailingSeparator then ['/'] else [])

/-- `path.join(a, b)`. -/
def pathJoin (a b : String) : String :=
  let parts := [a.data, b.data].filter (fun x => !x.isEmpty)
  if parts = [] then "." else String.mk (pathNormalizeL (joinSlash parts))

/-- State of the backward scan of `path.extname` (`none` is the `-1` of the
source). -/
structure ExtScan where
  startDot : Option Nat
  startPart : Nat
  endIdx : Option Nat
  matchedSlash : Bool
  preDotState : Int
  stop : Bool

/-- One iteration of the loop of `path.extname`, at index `i` on character `c`. -/
def extStep (st : ExtScan) (ic : Nat × Char) : ExtScan :=
  if st.stop then st
  else if ic.2 = '/' then
    if !st.matchedSlash then { st with startPart := ic.1 + 1, stop := true } else st
  else
    let st1 : ExtScan :=
      if st.endIdx = none then { st with matchedSlash := false, endIdx := some (ic.1 + 1) }
      else st
    if ic.2 = '.' then
      if st1.startDot = none then { st1 with startDot := some ic.1 }
      else if st1.preDotState ≠ 1 then { st1 with preDotState := 1 }
      else st1
    else if st1.startDot ≠ none then { st1 with preDotState := -1 }
    else st1

/-- `path.extname(p)`. -/
def pathExtname (p : String) : String :=
  let st := p.data.enum.reverse.foldl extStep ⟨none, 0, none, true, 0, false⟩
  match st.startDot, st.endIdx with
  | some sd, some e =>
    if st.preDotState = 0 ∨ (st.preDotState = 1 ∧ sd = e - 1 ∧ sd = st.startPart + 1) then ""
    else String.mk ((p.data.drop sd).take (e - sd))
  | _, _ => ""

/-! ## File system -/

/-- Node of the file system, under its normalized absolute path. -/
structure FsNode where
  path : String
  isDir : Bool
  deriving DecidableEq

/-- The file system: the nodes that exist. -/
abbrev FileSystem := List FsNode

/-- Resolution of a path: a trailing separator asks for a directory. -/
def fsLookup (fs : FileSystem) (p : String) : Option FsNode :=
  let trailing := decide (1 < p.data.length) && decide (p.data.getLast? = some '/')
  let key := if trailing then String.mk p.data.dropLast else p
  match fs.find? (fun n => decide (n.path = key)) with
  | some n => if trailing && !n.isDir then none else some n
  | none => none

/-- `fs.existsSync`. -/
def existsSync (fs : FileSystem) (p : String) : Bool := (fsLookup fs p).isSome

/-- `fs.unlinkSync`: removes a file; throws on a missing path and on a
directory. -/
def unlinkSync (fs : FileSystem) (p : String) : Except String FileSystem :=
  match fsLookup fs p with
  | none => .error "ENOENT"
  | some n =>
    if n.isDir then .error "EISDIR"
    else .ok (fs.filter (fun m => decide (m.path ≠ n.path)))

/-! ## Portfolio delete -/

/-- The host literal stripped from an image URL by the delete handler. -/
def renderHost : String := "https://al-madina-press-backend.onrender.com"

/-- The test `deletedItem.image && deletedItem.image.includes('/uploads/')`. -/
def isLocalImage : Option String → Bool
  | none => false
  | some s => decide (s ≠ "") && jsIncludes s "/uploads/"

/-- The `imagePath` of the delete handler. -/
def imagePathOf (dirname image : String) : String :=
  pathJoin dirname (jsReplace image renderHost "")

/-- Handler `app.delete('/api/portfolio/:id')`. -/
def deletePortfolio (dirname : String) (store : List PortfolioDoc) (fs : FileSystem)
    (id : String) : Response × List PortfolioDoc × FileSystem :=
  match castObjectId id with
  | none => (resError 500 "حدث خطأ أثناء حذف المنتج", store, fs)
  | some oid =>
    match removeFirst (fun d => decide (d._id = oid)) store with
    | (none, _) => (resError 404 "المنتج غير موجود", store, fs)
    | (some deletedItem, store') =>
      let ok := resJson [("message", .str "تم حذف المنتج بنجاح"), ("id", .str id)]
      if isLocalImage deletedItem.image then
        let imagePath := imagePathOf dirname (deletedItem.image.getD "")
        if existsSync fs imagePath then
          match unlinkSync fs imagePath with
          | .ok fs' => (ok, store', fs')
          | .error _ => (resError 500 "حدث خطأ أثناء حذف المنتج", store', fs)
        else (ok, store', fs)
      else (ok, store', fs)

/-! ## Image upload -/

/-- File part of a multipart request. -/
structure UploadFile where
  originalname : String
  mimetype : String
  size : Nat
  deriving DecidableEq

/-- The test `/jpeg|jpg|png|gif|webp/.test(s)`: some alternative occurs in `s`. -/
def allowedTypesTest (s : String) : Bool :=
  ["jpeg", "jpg", "png", "gif", "webp"].any (fun t => jsIncludes s t)

/-- The `fileFilter` of the upload middleware: `true` accepts the file. -/
def fileFilter (f : UploadFile) : Bool :=
  let extname := allowedTypesTest (jsLower (pathExtname f.originalname))
  let mimetype := allowedTypesTest f.mimetype
  extname && mimetype

/-- The `limits.fileSize` of the upload middleware. -/
def fileSizeLimit : Nat := 10 * 1024 * 1024

/-- The `filename` of the disk storage. -/
def storageFilename (now rnd : Nat) (f : UploadFile) : String :=
  "product-" ++ (toString now ++ "-" ++ toString rnd) ++ pathExtname f.originalname

/-- Configuration read from the process: directory of the server file,
`BASE_URL` and the port. -/
structure Config where
  dirname : String
  baseUrlVar : Option String
  port : String
  deriving DecidableEq

/-- The `uploadsDir` of the server. -/
def uploadsDir (cfg : Config) : String := pathJoin cfg.dirname "uploads"

/-- The `baseUrl` of the upload handler. -/
def baseUrl (cfg : Config) : String :=
  match cfg.baseUrlVar with
  | some u => if u ≠ "" then u else "http://localhost:" ++ cfg.port
  | none => "http://localhost:" ++ cfg.port

/-- Route `app.post('/api/upload', upload.single('image'), ...)`: the upload
middleware, then the handler, or the error middleware when the upload
middleware fails. -/
def uploadRoute (cfg : Config) (now rnd : Nat) (fs : FileSystem) (file : Option UploadFile) :
    Response × FileSystem :=
  match file with
  | none => (resError 400 "لم يتم رفع أي صورة", fs)
  | some f =>
    if !fileFilter f then (resError 500 "حدث خطأ في الخادم", fs)
    else if fileSizeLimit < f.size then (resError 500 "حدث خطأ في الخادم", fs)
    else
      let filename := storageFilename now rnd f
      let stored := pathJoin (uploadsDir cfg) filename
      (resJson [("message", .str "تم رفع الصورة بنجاح"),
                ("url", .str (baseUrl cfg ++ "/uploads/" ++ filename)),
                ("filename", .str filename)],
       ⟨stored, false⟩ :: fs.filter (fun n => decide (n.path ≠ stored)))

/-! ## Contact messages -/

/-- Document of the `Message` collection (`messageSchema`); `none` is `null`. -/
structure MessageDoc where
  _id : ObjectId
  type : Option String
  name : Option String
  email : Option String
  phone : Option String
  message : Option String
  product : Option String
  category : Option String
  recipient : Option String
  date : Option String
  time : Option String
  read : Option Bool
  createdAt : Option Nat
  deriving DecidableEq

/-- Body of `POST /api/messages`, path by path of the schema (the other keys
of the body are dropped by the strict schema). -/
structure MessageBody where
  _id : JVal
  type : JVal
  name : JVal
  email : JVal
  phone : JVal
  message : JVal
  product : JVal
  category : JVal
  recipient : JVal
  date : JVal
  time : JVal
  read : JVal
  createdAt : JVal
  deriving DecidableEq

/-- What the message handlers read from their surroundings: a fresh
identifier, the clock (`Date.now()`), the two locale renderings of the current
date and time, and the date parser of the runtime. -/
structure MsgEnv where
  newId : ObjectId
  now : Nat
  today : String
  clock : String
  parseDate : String → Option Nat

/-- Mongoose cast to `Boolean`; `none` at the outer level is a cast error. -/
def castBoolean : JVal → Option (Option Bool)
  | .undefined => some none
  | .null => some none
  | .bool b => some (some b)
  | .str s =>
    if s = "true" ∨ s = "1" ∨ s = "yes" then some (some true)
    else if s = "false" ∨ s = "0" ∨ s = "no" then some (some false)
    else none

/-- Mongoose cast to `Date`; `none` at the outer level is a cast error. -/
def castDate (env : MsgEnv) : JVal → Option (Option Nat)
  | .undefined => some none
  | .null => some none
  | .bool _ => none
  | .str s => if s = "" then some none else (env.parseDate s).map some

/-- A `String` path with a default: the default stands in for `undefined` only. -/
def withDefault (v : JVal) (dflt : String) : Option String :=
  if v = .undefined then some dflt else castString v

/-- The document `new Message(req.body)`, or `none` when a path fails to cast
or the document is left without `_id`. -/
def newMessage (env : MsgEnv) (b : MessageBody) : Option MessageDoc :=
  let oid : Option ObjectId :=
    match b._id with
    | .undefined => some env.newId
    | .str s => castObjectId s
    | _ => none
  let read : Option (Option Bool) :=
    if b.read = .undefined then some (some false) else castBoolean b.read
  let createdAt : Option (Option Nat) :=
    if b.createdAt = .undefined then some (some env.now) else castDate env b.createdAt
  match oid, read, createdAt with
  | some i, some r, some c =>
    some
      { _id := i
        type := castString b.type
        name := castString b.name
        email := withDefault b.email ""
        phone := castString b.phone
        message := castString b.message
        product := withDefault b.product ""
        category := withDefault b.category ""
        recipient := withDefault b.recipient ""
        date := withDefault b.date env.today
        time := withDefault b.time env.clock
        read := r
        createdAt := c }
  | _, _, _ => none

/-- Schema validation of a message run by `save`. -/
def validateMessage (d : MessageDoc) : Bool :=
  requiredOk d.type && requiredOk d.name && requiredOk d.phone && requiredOk d.message

/-- Boolean read back as a JSON value. -/
def optB : Option Bool → JVal
  | none => .null
  | some b => .bool b

/-- The public shape of a message returned by the create handler. -/
def publicMessage (d : MessageDoc) : List (String × JVal) :=
  [("id", .str d._id.toHex), ("type", optJ d.type), ("name", optJ d.name),
   ("email", optJ d.email), ("phone", optJ d.phone), ("message", optJ d.message),
   ("product", optJ d.product), ("category", optJ d.category),
   ("recipient", optJ d.recipient), ("date", optJ d.date), ("time", optJ d.time),
   ("read", optB d.read)]

/-- Handler `app.post('/api/messages')`. -/
def createMessage (env : MsgEnv) (store : List MessageDoc) (b : MessageBody) :
    Response × List MessageDoc :=
  match newMessage env b with
  | none => (resError 500 "حدث خطأ أثناء حفظ الرسالة", store)
  | some d =>
    if validateMessage d && !(store.any (fun m => decide (m._id = d._id))) then
      (resStatusJson 201 (publicMessage d), store ++ [d])
    else (resError 500 "حدث خطأ أثناء حفظ الرسالة", store)

/-- Handler `app.patch('/api/messages/:id/read')`. -/
def markRead (store : List MessageDoc) (id : String) : Response × List MessageDoc :=
  match castObjectId id with
  | none => (resError 500 "حدث خطأ أثناء تحديث الرسالة", store)
  | some oid =>
    match updateFirst (fun m => decide (m._id = oid)) (fun m => { m with read := some true })
        store with
    | (none, _) => (resError 404 "الرسالة غير موجودة", store)
    | (some _, store') =>
      (resJson [("message", .str "تم تحديث حالة القراءة"), ("id", .str id)], store')

/-- Handler `app.delete('/api/messages/:id')`. -/
def deleteMessage (store : List MessageDoc) (id : String) : Response × List MessageDoc :=
  match castObjectId id with
  | none => (resError 500 "حدث خطأ أثناء حذف الرسالة", store)
  | some oid =>
    match removeFirst (fun m => decide (m._id = oid)) store with
    | (none, _) => (resError 404 "الرسالة غير موجودة", store)
    | (some _, store') =>
      (resJson [("message", .str "تم حذف الرسالة بنجاح"), ("id", .str id)], store')

/-- Handler `app.delete('/api/messages')`. -/
def deleteAllMessages (_store : List MessageDoc) : Response × List MessageDoc :=
  (resJson [("message", .str "تم حذف جميع الرسائل بنجاح")], [])

/-- Sort key of `sort({ createdAt: -1 })`: `null` sorts below every date. -/
def createdKey (d : MessageDoc) : Nat :=
  match d.createdAt with
  | none => 0
  | some t => t + 1

/-- The shape of a message in the list response; `iso` renders a date the
way `JSON.stringify` does. -/
def listedMessage (iso : Nat → String) (d : MessageDoc) : List (String × JVal) :=
  publicMessage d ++ [("timestamp", optJ (d.createdAt.map iso))]

/-- Handler `app.get('/api/messages')`. -/
def listMessages (iso : Nat → String) (store : List MessageDoc) : Response × List MessageDoc :=
  (⟨200, .arr ((store.insertionSort (fun a b => createdKey b ≤ createdKey a)).map
      (listedMessage iso))⟩, store)

/-- Request to one of the message routes. -/
inductive MsgRequest where
  | list
  | create (b : MessageBody)
  | markRead (id : String)
  | delete (id : String)
  | deleteAll

/-- The message routes of the server. -/
def handleMessage (env : MsgEnv) (iso : Nat → String) (store : List MessageDoc) :
    MsgRequest → Response × List MessageDoc
  | .list => listMessages iso store
  | .create b => createMessage env store b
  | .markRead id => markRead store id
  | .delete id => deleteMessage store id
  | .deleteAll => deleteAllMessages store

/-! ## Settings -/

/-- Document of the `Settings` collection; a stored `value` may be `null`. -/
structure Setting where
  key : String
  value : Option String
  deriving DecidableEq

/-- Handler `app.get('/api/settings/:key')`. -/
def getSetting (store : List Setting) (key : String) : Response :=
  match store.find? (fun s => decide (s.key = key)) with
  | none =>
    if key = "adminUsername" then resJson [("value", .str "admin")]
    else if key = "adminPassword" then resJson [("value", .str "admin123")]
    else resError 404 "الإعداد غير موجود"
  | some setting => resJson [("value", optJ setting.value)]

/-! ## Invariant and sample data -/

/-- The invariant of the data model on one document: the category is one of
the four labels, the title and the image are non-empty strings. -/
def docValid (d : PortfolioDoc) : Bool :=
  requiredOk d.title && (requiredOk d.category && enumOk d.category) && requiredOk d.image

/-- The invariant of the data model on the portfolio collection. -/
def portfolioInv (store : List PortfolioDoc) : Bool := store.all docValid

/-- Sample identifier `111111111111111111111111`. -/
def sampleId : ObjectId := ⟨List.replicate 24 1, by decide⟩

/-- Sample identifier `222222222222222222222222`. -/
def otherId : ObjectId := ⟨List.replicate 24 2, by decide⟩

/-- Sample surroundings of a create request. -/
def sampleEnv : Env := ⟨sampleId, 1700000000000, "١٤٤٥/٥/١"⟩

/-- Sample valid stored item with a remote image. -/
def sampleDoc : PortfolioDoc :=
  { _id := sampleId, title := some "X", category := some "كتب وأغلفة",
    image := some "http://x/y.png", description := some "", details := some "",
    date := some "١٤٤٥/٥/١", createdAt := 1700000000000 }

/-- The create body of the example of the specification. -/
def sampleCreate : CreateBody :=
  ⟨.str "X", .str "كتب وأغلفة", .str "http://x/y.png", .undefined, .undefined, .undefined⟩

/-- Sample item whose image path resolves to the uploads directory itself. -/
def dirImageDoc : PortfolioDoc :=
  { sampleDoc with image := some "/uploads/." }

/-- Sample item on the deployed host whose image URL stops at the uploads
directory. -/
def slashImageDoc : PortfolioDoc :=
  { sampleDoc with _id := otherId,
                   image := some "https://al-madina-press-backend.onrender.com/uploads/" }

/-- The file system of a server started in `/app`: the uploads directory that
the server creates when it starts. -/
def serverFs : FileSystem := [⟨"/app/uploads", true⟩]

/-- `Message.findById` on a cast identifier. -/
def findMessage (store : List MessageDoc) (oid : ObjectId) : Option MessageDoc :=
  store.find? (fun m => decide (m._id = oid))

/-- Sample unread message. -/
def sampleMessage : MessageDoc :=
  { _id := sampleId, type := some "contact", name := some "A", email := some "",
    phone := some "0100", message := some "hello", product := some "", category := some "",
    recipient := some "", date := some "١/١/٢٠٢٤", time := some "١٠:٠٠", read := some false,
    createdAt := some 1700000000000 }

/-- Sample stored settings. -/
def sampleSettings : List Setting := [⟨"adminUsername", some "root"⟩, ⟨"theme", none⟩]

/-- Sample configuration: server in `/app`, `BASE_URL` unset, port 4000. -/
def localConfig : Config := ⟨"/app", none, "4000"⟩

/-- Sample configuration: server in `/app`, `BASE_URL` set to the deployed host. -/
def renderConfig : Config := ⟨"/app", some "https://al-madina-press-backend.onrender.com", "4000"⟩

/-- Sample uploaded image. -/
def samplePhoto : UploadFile := ⟨"photo.png", "image/png", 2048⟩

/-- Sample item whose image is the URL returned for `samplePhoto` under
`localConfig`. -/
def localUploadDoc : PortfolioDoc :=
  { sampleDoc with
    image := some "http://localhost:4000/uploads/product-1700000000000-123456789.png" }

/-- Sample item whose image is the URL returned for `samplePhoto` under
`renderConfig`. -/
def renderUploadDoc : PortfolioDoc :=
  { sampleDoc with
    image := some
      "https://al-madina-press-backend.onrender.com/uploads/product-1700000000000-123456789.png" }

/-! ## Auxiliary facts -/

theorem parseHexDigit_hexDigit : ∀ n : Fin 16, parseHexDigit (hexDigit n) = some n := by
  decide

theorem parseHexList_map (l : List (Fin 16)) : parseHexList (l.map hexDigit) = some l := by
  induction l with
  | nil => rfl
  | cons n ns ih => simp [parseHexList, parseHexDigit_hexDigit, ih]

/-- Reading back the hexadecimal form of an identifier gives the identifier. -/
theorem castObjectId_toHex (o : ObjectId) : castObjectId o.toHex = some o := by
  have h := parseHexList_map o.nibbles
  unfold castObjectId ObjectId.toHex
  simp only [h]
  simp [o.len]

theorem updateFirst_fst {α : Type} (p : α → Bool) (f : α → α) (l : List α) :
    (updateFirst p f l).1 = (l.find? p).map f := by
  induction l with
  | nil => rfl
  | cons x xs ih =>
    by_cases hx : p x = true
    · simp [updateFirst, hx]
    · simp [updateFirst, hx, ih]

theorem updateFirst_find {α : Type} (p : α → Bool) (f : α → α)
    (hpf : ∀ x, p x = true → p (f x) = true) (l : List α) :
    (updateFirst p f l).2.find? p = (l.find? p).map f := by
  induction l with
  | nil => rfl
  | cons x xs ih =>
    by_cases hx : p x = true
    · simp [updateFirst, hx, hpf x hx]
    · simp [updateFirst, hx, ih]

theorem updateFirst_find_other {α : Type} (p q : α → Bool) (f : α → α)
    (hq : ∀ x, p x = true → q x = false ∧ q (f x) = false) (l : List α) :
    (updateFirst p f l).2.find? q = l.find? q := by
  induction l with
  | nil => rfl
  | cons x xs ih =>
    by_cases hx : p x = true
    · simp [updateFirst, hx, (hq x hx).1, (hq x hx).2]
    · by_cases hqx : q x = true
      · simp [updateFirst, hx, hqx]
      · simp [updateFirst, hx, hqx, ih]

theorem removeFirst_fst {α : Type} (p : α → Bool) (l : List α) :
    (removeFirst p l).1 = l.find? p := by
  induction l with
  | nil => rfl
  | cons x xs ih =>
    by_cases hx : p x = true
    · simp [removeFirst, hx]
    · simp [removeFirst, hx, ih]

theorem removeFirst_snd {α : Type} (p : α → Bool) (l : List α) :
    (removeFirst p l).2 = l.eraseP p := by
  induction l with
  | nil => rfl
  | cons x xs ih =>
    by_cases hx : p x = true
    · simp [removeFirst, hx]
    · simp [removeFirst, hx, ih]

theorem removeFirst_find_other {α : Type} (p q : α → Bool)
    (hq : ∀ x, p x = true → q x = false) (l : List α) :
    (removeFirst p l).2.find? q = l.find? q := by
  induction l with
  | nil => rfl
  | cons x xs ih =>
    by_cases hx : p x = true
    · simp [removeFirst, hx, hq x hx]
    · by_cases hqx : q x = true
      · simp [removeFirst, hx, hqx]
      · simp [removeFirst, hx, hqx, ih]

theorem removeFirst_subset {α : Type} (p : α → Bool) (l : List α) :
    ∀ x ∈ (removeFirst p l).2, x ∈ l := by
  rw [removeFirst_snd]
  intro x hx
  exact List.mem_of_mem_eraseP hx

/-! ## The claims -/

theorem validate_false_of_category (env : Env) (b : CreateBody)
    (h : ∀ l ∈ categoryEnum, b.category ≠ .str l) :
    validatePortfolio (newPortfolio env b) = false := by
  have hc : (requiredOk (castString b.category) && enumOk (castString b.category)) = false := by
    cases hb : b.category with
    | undefined => rfl
    | null => rfl
    | bool v => cases v <;> decide
    | str s =>
      have hs : s ∉ categoryEnum := fun hm => h s hm hb
      simp [castString, enumOk, hs]
  simp only [validatePortfolio, newPortfolio]
  rw [Bool.and_assoc (requiredOk _), hc]
  simp

/-- C1 (as the code has it): a create request whose category is none of the
four labels is answered with status 500 and the generic error body, and the
collection is left as it was. -/
theorem create_rejects_foreign_category (env : Env) (store : List PortfolioDoc) (b : CreateBody)
    (h : ∀ l ∈ categoryEnum, b.category ≠ .str l) :
    (createPortfolio env store b).1 = resError 500 "حدث خطأ أثناء إضافة المنتج" ∧
    (createPortfolio env store b).2 = store := by
  simp [createPortfolio, savePortfolio, validate_false_of_category env b h]

theorem create_rejects_foreign_category_witness :
    (∀ l ∈ categoryEnum, (⟨.str "X", .str "books", .str "http://x/y.png", .undefined, .undefined,
        .undefined⟩ : CreateBody).category ≠ .str l) ∧
    (createPortfolio sampleEnv [] ⟨.str "X", .str "books", .str "http://x/y.png", .undefined,
        .undefined, .undefined⟩).1 = resError 500 "حدث خطأ أثناء إضافة المنتج" ∧
    (createPortfolio sampleEnv [] ⟨.str "X", .str "books", .str "http://x/y.png", .undefined,
        .undefined, .undefined⟩).2 = [] :=
  ⟨by decide, create_rejects_foreign_category sampleEnv [] _ (by decide)⟩

/-- C1 refuted as stated: a create request with the category `books`, which
is none of the four labels, is answered with status 500, not 400. -/
theorem create_foreign_category_not_400 :
    (∀ l ∈ categoryEnum, JVal.str "books" ≠ .str l) ∧
    (createPortfolio ⟨otherId, 1700000000001, "١٤٤٥/٥/١"⟩ [sampleDoc]
      ⟨.str "X", .str "books", .str "http://x/y.png", .undefined, .undefined, .undefined⟩).1.status
      = 500 ∧
    (createPortfolio ⟨otherId, 1700000000001, "١٤٤٥/٥/١"⟩ [sampleDoc]
      ⟨.str "X", .str "books", .str "http://x/y.png", .undefined, .undefined, .undefined⟩).1.status
      ≠ 400 ∧
    (createPortfolio ⟨otherId, 1700000000001, "١٤٤٥/٥/١"⟩ [sampleDoc]
      ⟨.str "X", .str "books", .str "http://x/y.png", .undefined, .undefined, .undefined⟩).2
      = [sampleDoc] := by
  decide

theorem updateFirst_filter_other {α : Type} (p q : α → Bool) (f : α → α)
    (hq : ∀ x, p x = true → q x = false ∧ q (f x) = false) (l : List α) :
    (updateFirst p f l).2.filter q = l.filter q := by
  induction l with
  | nil => rfl
  | cons x xs ih =>
    by_cases hx : p x = true
    · simp [updateFirst, hx, (hq x hx).1, (hq x hx).2]
    · by_cases hqx : q x = true
      · simp [updateFirst, hx, hqx, ih]
      · simp [updateFirst, hx, hqx, ih]

theorem updateFirst_length {α : Type} (p : α → Bool) (f : α → α) (l : List α) :
    (updateFirst p f l).2.length = l.length := by
  induction l with
  | nil => rfl
  | cons x xs ih =>
    by_cases hx : p x = true
    · simp [updateFirst, hx]
    · simp [updateFirst, hx, ih]

/-- C2 (as the code has it): an update of a stored item answers with the
updated item, which keeps its identity, its `date` and its `createdAt`; each of
`title`, `category`, `image`, `description`, `details` that the body leaves out
keeps its value; each of `category`, `image`, `description`, `details` that the
body carries takes the supplied value as the schema casts it (a string as it
is), and a `title` that the body carries takes the supplied value with the
surrounding white space trimmed; the collection keeps its size and every item
with another identifier is left as it was. -/
theorem update_frame (store : List PortfolioDoc) (id : String) (b : UpdateBody)
    (oid : ObjectId) (d : PortfolioDoc)
    (hid : castObjectId id = some oid) (hd : findDoc store oid = some d) :
    ∃ d', findDoc (updatePortfolio store id b).2 oid = some d' ∧
      (updatePortfolio store id b).1 = resJson (publicItem d') ∧
      d'._id = d._id ∧ d'.date = d.date ∧ d'.createdAt = d.createdAt ∧
      (b.title = .undefined → d'.title = d.title) ∧
      (b.category = .undefined → d'.category = d.category) ∧
      (b.image = .undefined → d'.image = d.image) ∧
      (b.description = .undefined → d'.description = d.description) ∧
      (b.details = .undefined → d'.details = d.details) ∧
      (b.title ≠ .undefined → d'.title = castTrim b.title) ∧
      (b.category ≠ .undefined → d'.category = castString b.category) ∧
      (b.image ≠ .undefined → d'.image = castString b.image) ∧
      (b.description ≠ .undefined → d'.description = castString b.description) ∧
      (b.details ≠ .undefined → d'.details = castString b.details) ∧
      (∀ s, b.title = .str s → d'.title = some (jsTrim s)) ∧
      (∀ s, b.category = .str s → d'.category = some s) ∧
      (∀ s, b.image = .str s → d'.image = some s) ∧
      (∀ s, b.description = .str s → d'.description = some s) ∧
      (∀ s, b.details = .str s → d'.details = some s) ∧
      (updatePortfolio store id b).2.length = store.length ∧
      (updatePortfolio store id b).2.filter (fun x => decide (x._id ≠ oid)) =
        store.filter (fun x => decide (x._id ≠ oid)) := by
  have h1 := updateFirst_fst (fun x : PortfolioDoc => decide (x._id = oid)) (applyUpdate b) store
  have h2 := updateFirst_find (fun x : PortfolioDoc => decide (x._id = oid)) (applyUpdate b)
    (fun x hx => by simpa [applyUpdate] using hx) store
  have h3 := updateFirst_length (fun x : PortfolioDoc => decide (x._id = oid)) (applyUpdate b)
    store
  have h4 := updateFirst_filter_other (fun x : PortfolioDoc => decide (x._id = oid))
    (fun x : PortfolioDoc => decide (x._id ≠ oid)) (applyUpdate b)
    (fun x hx => by
      have hxo : x._id = oid := by simpa using hx
      simp [applyUpdate, hxo]) store
  have hpair : updatePortfolio store id b =
      (resJson (publicItem (applyUpdate b d)),
        (updateFirst (fun x : PortfolioDoc => decide (x._id = oid)) (applyUpdate b) store).2) := by
    unfold findDoc at hd
    rw [hd] at h1
    simp only [updatePortfolio, hid]
    generalize updateFirst (fun x : PortfolioDoc => decide (x._id = oid)) (applyUpdate b) store = r
      at h1
    obtain ⟨r1, r2⟩ := r
    simp only [Option.map_some'] at h1
    subst h1
    rfl
  refine ⟨applyUpdate b d, ?_, ?_, rfl, rfl, rfl, ?_⟩
  · rw [hpair]
    unfold findDoc at *
    rw [h2, hd]
    rfl
  · rw [hpair]
  · rw [hpair]
    simp only [applyUpdate]
    refine ⟨?_, ?_, ?_, ?_, ?_, ?_, ?_, ?_, ?_, ?_, ?_, ?_, ?_, ?_, ?_, h3, h4⟩
    all_goals first
      | (intro s h; simp [h, castTrim, castString])
      | (intro h; simp [h])

theorem update_frame_witness :
    ∃ d', findDoc (updatePortfolio [sampleDoc, slashImageDoc] "111111111111111111111111"
        ⟨.str " Y ", .undefined, .undefined, .null, .undefined⟩).2 sampleId = some d' ∧
      (updatePortfolio [sampleDoc, slashImageDoc] "111111111111111111111111"
        ⟨.str " Y ", .undefined, .undefined, .null, .undefined⟩).1 = resJson (publicItem d') ∧
      d'._id = sampleDoc._id ∧ d'.date = sampleDoc.date ∧ d'.createdAt = sampleDoc.createdAt ∧
      d'.title = some "Y" ∧ d'.category = sampleDoc.category ∧ d'.image = sampleDoc.image ∧
      d'.description = none ∧ d'.details = sampleDoc.details ∧
      (updatePortfolio [sampleDoc, slashImageDoc] "111111111111111111111111"
        ⟨.str " Y ", .undefined, .undefined, .null, .undefined⟩).2.filter
          (fun x => decide (x._id ≠ sampleId)) = [slashImageDoc] := by
  obtain ⟨d', h1, h2, h3, h4, h5, _, a2, a3, _, a5, _, _, _, p4, _, s1, _, _, _, _, _, hf⟩ :=
    update_frame [sampleDoc, slashImageDoc] "111111111111111111111111"
      ⟨.str " Y ", .undefined, .undefined, .null, .undefined⟩ sampleId sampleDoc
      (by decide) (by decide)
  exact ⟨d', h1, h2, h3, h4, h5, (s1 " Y " rfl).trans (by decide), a2 rfl, a3 rfl,
    (p4 (by decide)).trans (by decide), a5 rfl, hf.trans (by decide)⟩

/-- C2 refuted as stated: the update body carries the title ` Y ` (with a
blank on each side); the stored item and the response take `Y`, which is not
the supplied value. -/
theorem update_title_is_trimmed :
    findDoc (updatePortfolio [sampleDoc] "111111111111111111111111"
        ⟨.str " Y ", .undefined, .undefined, .undefined, .undefined⟩).2 sampleId =
      some { sampleDoc with title := some "Y" } ∧
    (updatePortfolio [sampleDoc] "111111111111111111111111"
        ⟨.str " Y ", .undefined, .undefined, .undefined, .undefined⟩).1.body.field "title" =
      some (.str "Y") ∧
    (updatePortfolio [sampleDoc] "111111111111111111111111"
        ⟨.str " Y ", .undefined, .undefined, .undefined, .undefined⟩).1.body.field "title" ≠
      some (.str " Y ") := by
  decide

theorem docValid_eq_validate (d : PortfolioDoc) : docValid d = validatePortfolio d := by
  simp [docValid, validatePortfolio, Bool.and_assoc]

/-- Create keeps the invariant of the collection: a document is appended only
after the schema validators have passed. -/
theorem create_preserves_invariant (env : Env) (store : List PortfolioDoc) (b : CreateBody)
    (h : portfolioInv store = true) : portfolioInv (createPortfolio env store b).2 = true := by
  unfold createPortfolio savePortfolio
  by_cases hv : validatePortfolio (newPortfolio env b) = true
  · by_cases hf : (findDoc store (newPortfolio env b)._id).isSome = true
    · simpa [hv, hf] using h
    · simp only [hv, hf, if_true, if_false]
      unfold portfolioInv at *
      simp [List.all_append, h, docValid_eq_validate, hv]
  · simpa [hv] using h

/-- Delete keeps the invariant of the collection: it only removes a document. -/
theorem delete_preserves_invariant (dirname : String) (store : List PortfolioDoc)
    (fs : FileSystem) (id : String) (h : portfolioInv store = true) :
    portfolioInv (deletePortfolio dirname store fs id).2.1 = true := by
  have hsub : ∀ x ∈ (deletePortfolio dirname store fs id).2.1, x ∈ store := by
    unfold deletePortfolio
    cases castObjectId id with
    | none => exact fun x hx => hx
    | some oid =>
      have h2 := removeFirst_subset (fun d : PortfolioDoc => decide (d._id = oid)) store
      simp only
      generalize removeFirst (fun d : PortfolioDoc => decide (d._id = oid)) store = r at h2
      obtain ⟨r1, r2⟩ := r
      cases r1 with
      | none => exact fun x hx => hx
      | some y =>
        simp only
        split
        · split
          · split <;> exact h2
          · exact h2
        · exact h2
  unfold portfolioInv at *
  rw [List.all_eq_true] at *
  exact fun x hx => h x (hsub x hx)

/-- C3 on the failing input: the collection holding the one valid sample item
satisfies the invariant, and after the update `PUT /api/portfolio/:id` with
body `category: "books", title: ""` it does not: the update is answered with
status 200 and stores the foreign category and the empty title. -/
theorem update_breaks_invariant :
    portfolioInv [sampleDoc] = true ∧
    (updatePortfolio [sampleDoc] "111111111111111111111111"
      ⟨.str "", .str "books", .undefined, .undefined, .undefined⟩).1.status = 200 ∧
    (updatePortfolio [sampleDoc] "111111111111111111111111"
      ⟨.str "", .str "books", .undefined, .undefined, .undefined⟩).2 =
      [{ sampleDoc with title := some "", category := some "books" }] ∧
    portfolioInv (updatePortfolio [sampleDoc] "111111111111111111111111"
      ⟨.str "", .str "books", .undefined, .undefined, .undefined⟩).2 = false := by
  decide

theorem findDoc_append_new (store : List PortfolioDoc) (d : PortfolioDoc)
    (h : findDoc store d._id = none) : findDoc (store ++ [d]) d._id = some d := by
  unfold findDoc at *
  simp [List.find?_append, h]

/-- C5: when a create request is answered with status 201, the body carries
the identifier of the new item as the string `id`, and a get request for that
identifier on the resulting collection is answered with status 200 and the
very same body (`id`, `title`, `category`, `image`, `description`, `details`,
`date`); `description` and `details` are the empty string when the create body
left them out. -/
theorem get_after_create (env : Env) (store : List PortfolioDoc) (b : CreateBody)
    (h : (createPortfolio env store b).1.status = 201) :
    ∃ idStr, (createPortfolio env store b).1.body.field "id" = some (.str idStr) ∧
      getPortfolio (createPortfolio env store b).2 idStr =
        ⟨200, (createPortfolio env store b).1.body⟩ ∧
      (b.description = .undefined →
        (createPortfolio env store b).1.body.field "description" = some (.str "")) ∧
      (b.details = .undefined →
        (createPortfolio env store b).1.body.field "details" = some (.str "")) := by
  unfold createPortfolio savePortfolio at *
  by_cases hv : validatePortfolio (newPortfolio env b) = true
  · cases hf : findDoc store (newPortfolio env b)._id with
    | some x => simp [hv, hf, resError, resStatusJson] at h
    | none =>
      simp only [hv, hf, if_true, Option.isSome_none, Bool.false_eq_true, if_false]
      refine ⟨env.newId.toHex, ?_, ?_, ?_, ?_⟩
      · simp [resStatusJson, Body.field, publicItem, newPortfolio]
      · have := findDoc_append_new store (newPortfolio env b) hf
        have hid : (newPortfolio env b)._id = env.newId := rfl
        rw [hid] at this
        simp [getPortfolio, castObjectId_toHex, this, resJson, resStatusJson]
      · intro hd
        simp [resStatusJson, Body.field, publicItem, newPortfolio, hd, JVal.orElse, JVal.truthy,
          castString, optJ]
      · intro hd
        simp [resStatusJson, Body.field, publicItem, newPortfolio, hd, JVal.orElse, JVal.truthy,
          castString, optJ]
  · simp [hv, resError, resStatusJson] at h

theorem get_after_create_witness :
    (createPortfolio sampleEnv [] sampleCreate).1.status = 201 ∧
    ∃ idStr, (createPortfolio sampleEnv [] sampleCreate).1.body.field "id" = some (.str idStr) ∧
      getPortfolio (createPortfolio sampleEnv [] sampleCreate).2 idStr =
        ⟨200, (createPortfolio sampleEnv [] sampleCreate).1.body⟩ ∧
      (sampleCreate.description = .undefined →
        (createPortfolio sampleEnv [] sampleCreate).1.body.field "description" = some (.str "")) ∧
      (sampleCreate.details = .undefined →
        (createPortfolio sampleEnv [] sampleCreate).1.body.field "details" = some (.str "")) :=
  ⟨by decide, get_after_create sampleEnv [] sampleCreate (by decide)⟩

/-- C6 (as the code has it): for an id that casts to the identifier of no
stored item, a get request is answered with a body carrying `error`, with
status 404 when the id is well formed (24 hexadecimal digits) and with status
500 when it is not. -/
theorem get_unknown_id (store : List PortfolioDoc) (id : String)
    (h : ∀ d ∈ store, castObjectId id ≠ some d._id) :
    (getPortfolio store id).body.field "error" ≠ none ∧
    ((castObjectId id).isSome = true → (getPortfolio store id).status = 404) ∧
    (castObjectId id = none → (getPortfolio store id).status = 500) := by
  unfold getPortfolio
  cases hc : castObjectId id with
  | none => simp [resError, resStatusJson, Body.field]
  | some oid =>
    have hf : findDoc store oid = none := by
      unfold findDoc
      rw [List.find?_eq_none]
      intro x hx hxo
      simp at hxo
      exact h x hx (by rw [hc, hxo])
    simp [hf, resError, resStatusJson, Body.field]

theorem get_unknown_id_witness :
    (∀ d ∈ [sampleDoc], castObjectId "222222222222222222222222" ≠ some d._id) ∧
    (getPortfolio [sampleDoc] "222222222222222222222222").body.field "error" ≠ none ∧
    ((castObjectId "222222222222222222222222").isSome = true →
      (getPortfolio [sampleDoc] "222222222222222222222222").status = 404) ∧
    (castObjectId "222222222222222222222222" = none →
      (getPortfolio [sampleDoc] "222222222222222222222222").status = 500) :=
  ⟨by decide, get_unknown_id [sampleDoc] "222222222222222222222222" (by decide)⟩

/-- C6 refuted as stated: `abc` is the identity of no stored item, and the
get request for it is answered with status 500, not 404. -/
theorem get_malformed_id_is_500 :
    (∀ d ∈ [sampleDoc], d._id.toHex ≠ "abc") ∧
    (getPortfolio [sampleDoc] "abc").status = 500 ∧
    (getPortfolio [sampleDoc] "abc").status ≠ 404 := by
  decide

theorem find_of_mem_nodup {α κ : Type} [DecidableEq κ] (key : α → κ) (l : List α) (d : α)
    (hnd : (l.map key).Nodup) (hmem : d ∈ l) :
    l.find? (fun x => decide (key x = key d)) = some d := by
  induction l with
  | nil => cases hmem
  | cons x xs ih =>
    rw [List.map_cons, List.nodup_cons] at hnd
    rcases List.mem_cons.mp hmem with h | h
    · subst h
      simp
    · have hne : key x ≠ key d := by
        intro he
        exact hnd.1 (he ▸ List.mem_map_of_mem key h)
      simp [hne, ih hnd.2 h]

theorem find_eraseP_none {α κ : Type} [DecidableEq κ] (key : α → κ) (l : List α) (o : κ)
    (hnd : (l.map key).Nodup) :
    (l.eraseP (fun x => decide (key x = o))).find? (fun x => decide (key x = o)) = none := by
  induction l with
  | nil => rfl
  | cons x xs ih =>
    rw [List.map_cons, List.nodup_cons] at hnd
    by_cases hx : key x = o
    · simp only [List.eraseP_cons, hx, decide_True, cond_true]
      rw [List.find?_eq_none]
      intro y hy hyo
      simp at hyo
      exact hnd.1 (by rw [hx, ← hyo]; exact List.mem_map_of_mem key hy)
    · simp [List.eraseP_cons, hx, ih hnd.2]

theorem eraseP_eq_erase {α : Type} [DecidableEq α] (p : α → Bool) (l : List α) (d : α)
    (h : l.find? p = some d) : l.eraseP p = l.erase d := by
  induction l with
  | nil => cases h
  | cons x xs ih =>
    by_cases hx : p x = true
    · simp [hx] at h
      subst h
      simp [List.eraseP_cons, hx]
    · have hpd : p d = true := List.find?_some h
      have hne : x ≠ d := fun he => hx (he ▸ hpd)
      simp [hx] at h
      simp [List.eraseP_cons, hx, List.erase_cons, hne, ih h]

theorem removeFirst_of_find (store : List PortfolioDoc) (oid : ObjectId) (d : PortfolioDoc)
    (hd : findDoc store oid = some d) :
    removeFirst (fun x : PortfolioDoc => decide (x._id = oid)) store = (some d, store.erase d) := by
  have h1 := removeFirst_fst (fun x : PortfolioDoc => decide (x._id = oid)) store
  have h2 := removeFirst_snd (fun x : PortfolioDoc => decide (x._id = oid)) store
  unfold findDoc at hd
  rw [hd] at h1
  rw [eraseP_eq_erase _ _ _ hd] at h2
  exact Prod.ext h1 h2

/-- C7 (as the code has it): deleting a stored item whose image is locally
hosted removes the record in every case; when the image file exists and its
removal throws, the response is the 500 error response; when the image file
does not exist, nothing is attempted and the response is the success
response. -/
theorem delete_local_image (dirname : String) (store : List PortfolioDoc) (fs : FileSystem)
    (id : String) (oid : ObjectId) (d : PortfolioDoc)
    (hid : castObjectId id = some oid) (hd : findDoc store oid = some d)
    (hl : isLocalImage d.image = true) :
    (deletePortfolio dirname store fs id).2.1 = store.erase d ∧
    (existsSync fs (imagePathOf dirname (d.image.getD "")) = true →
      (∀ e, unlinkSync fs (imagePathOf dirname (d.image.getD "")) = .error e →
        (deletePortfolio dirname store fs id).1 = resError 500 "حدث خطأ أثناء حذف المنتج" ∧
        (deletePortfolio dirname store fs id).2.2 = fs)) ∧
    (existsSync fs (imagePathOf dirname (d.image.getD "")) = false →
      (deletePortfolio dirname store fs id).1 =
        resJson [("message", .str "تم حذف المنتج بنجاح"), ("id", .str id)] ∧
      (deletePortfolio dirname store fs id).2.2 = fs) := by
  have hr := removeFirst_of_find store oid d hd
  refine ⟨?_, ?_, ?_⟩
  · simp only [deletePortfolio, hid, hr, hl, if_true]
    split
    · split <;> rfl
    · rfl
  · intro he e hu
    simp [deletePortfolio, hid, hr, hl, he, hu]
  · intro he
    simp [deletePortfolio, hid, hr, hl, he]

theorem delete_local_image_witness :
    (deletePortfolio "/app" [dirImageDoc] serverFs "111111111111111111111111").2.1 = [] ∧
    (deletePortfolio "/app" [dirImageDoc] serverFs "111111111111111111111111").1
      = resError 500 "حدث خطأ أثناء حذف المنتج" ∧
    (deletePortfolio "/app" [dirImageDoc] serverFs "111111111111111111111111").2.2 = serverFs := by
  obtain ⟨h1, h2, _⟩ := delete_local_image "/app" [dirImageDoc] serverFs
    "111111111111111111111111" sampleId dirImageDoc (by decide) (by decide) (by decide)
  exact ⟨h1.trans (by decide), h2 (by decide) "EISDIR" rfl⟩

/-- C7 refuted as stated: the stored item has the locally hosted image
`/uploads/.`, whose path is the uploads directory; removing it throws, and
the delete request is answered with status 500 and an error body, not with
the success response, while the record is gone. -/
theorem delete_unlink_failure_is_500 :
    isLocalImage dirImageDoc.image = true ∧
    imagePathOf "/app" "/uploads/." = "/app/uploads" ∧
    existsSync serverFs "/app/uploads" = true ∧
    unlinkSync serverFs "/app/uploads" = .error "EISDIR" ∧
    (deletePortfolio "/app" [dirImageDoc] serverFs
      "111111111111111111111111").1.status = 500 ∧
    (deletePortfolio "/app" [dirImageDoc] serverFs
      "111111111111111111111111").1.status ≠ 200 :=
  ⟨by decide, by decide, by decide, rfl, by decide, by decide⟩

theorem nodup_ids_nodup (store : List PortfolioDoc)
    (hnd : (store.map (fun x => x._id)).Nodup) : store.Nodup :=
  List.Nodup.of_map _ hnd

/-- C9 (as the code has it): for a stored item, the first delete removes the
record and is answered with the success response, or with the 500 error
response when the item has a locally hosted image whose file exists and whose
removal throws; a second delete of the same id is answered with the 404 error
response and changes neither the collection nor the files. -/
theorem delete_twice (dirname : String) (store : List PortfolioDoc) (fs : FileSystem)
    (d : PortfolioDoc) (hmem : d ∈ store) (hnd : (store.map (fun x => x._id)).Nodup) :
    (deletePortfolio dirname store fs d._id.toHex).2.1 = store.erase d ∧
    d ∉ (deletePortfolio dirname store fs d._id.toHex).2.1 ∧
    ((deletePortfolio dirname store fs d._id.toHex).1 =
        resJson [("message", .str "تم حذف المنتج بنجاح"), ("id", .str d._id.toHex)] ∨
      ((deletePortfolio dirname store fs d._id.toHex).1 =
          resError 500 "حدث خطأ أثناء حذف المنتج" ∧
        isLocalImage d.image = true ∧
        existsSync fs (imagePathOf dirname (d.image.getD "")) = true ∧
        ∃ e, unlinkSync fs (imagePathOf dirname (d.image.getD "")) = .error e)) ∧
    (deletePortfolio dirname (deletePortfolio dirname store fs d._id.toHex).2.1
        (deletePortfolio dirname store fs d._id.toHex).2.2 d._id.toHex).1 =
      resError 404 "المنتج غير موجود" ∧
    (deletePortfolio dirname (deletePortfolio dirname store fs d._id.toHex).2.1
        (deletePortfolio dirname store fs d._id.toHex).2.2 d._id.toHex).2 =
      (deletePortfolio dirname store fs d._id.toHex).2 := by
  have hid := castObjectId_toHex d._id
  have hd : findDoc store d._id = some d := find_of_mem_nodup (fun x : PortfolioDoc => x._id) store d hnd hmem
  have hr := removeFirst_of_find store d._id d hd
  have hstore : (deletePortfolio dirname store fs d._id.toHex).2.1 = store.erase d := by
    simp only [deletePortfolio, hid, hr]
    split
    · split
      · split <;> rfl
      · rfl
    · rfl
  have hgone : findDoc (store.erase d) d._id = none := by
    have h := find_eraseP_none (fun x : PortfolioDoc => x._id) store d._id hnd
    rw [eraseP_eq_erase _ _ _ hd] at h
    exact h
  have hsecond : ∀ fs', deletePortfolio dirname (store.erase d) fs' d._id.toHex =
      (resError 404 "المنتج غير موجود", store.erase d, fs') := by
    intro fs'
    have h1 := removeFirst_fst (fun x : PortfolioDoc => decide (x._id = d._id)) (store.erase d)
    unfold findDoc at hgone
    rw [hgone] at h1
    simp only [deletePortfolio, hid]
    generalize removeFirst (fun x : PortfolioDoc => decide (x._id = d._id)) (store.erase d) = r
      at h1
    obtain ⟨r1, r2⟩ := r
    simp only at h1
    subst h1
    rfl
  refine ⟨hstore, ?_, ?_, ?_, ?_⟩
  · rw [hstore]
    exact fun h => (List.Nodup.mem_erase_iff (nodup_ids_nodup store hnd)).mp h |>.1 rfl
  · simp only [deletePortfolio, hid, hr]
    by_cases hl : isLocalImage d.image = true
    · by_cases he : existsSync fs (imagePathOf dirname (d.image.getD "")) = true
      · cases hu : unlinkSync fs (imagePathOf dirname (d.image.getD "")) with
        | ok fs' => simp [hl, he, hu]
        | error e => simp [hl, he, hu]
      · simp [hl, he]
    · simp [hl]
  · rw [hstore, hsecond]
  · rw [hstore, hsecond]
    exact Prod.ext hstore.symm rfl

theorem delete_twice_witness :
    (deletePortfolio "/app" [sampleDoc, slashImageDoc] serverFs sampleDoc._id.toHex).2.1
      = [slashImageDoc] ∧
    (deletePortfolio "/app" [sampleDoc, slashImageDoc] serverFs sampleDoc._id.toHex).1 =
      resJson [("message", .str "تم حذف المنتج بنجاح"), ("id", .str sampleDoc._id.toHex)] ∧
    (deletePortfolio "/app"
        (deletePortfolio "/app" [sampleDoc, slashImageDoc] serverFs sampleDoc._id.toHex).2.1
        (deletePortfolio "/app" [sampleDoc, slashImageDoc] serverFs sampleDoc._id.toHex).2.2
        sampleDoc._id.toHex).1 = resError 404 "المنتج غير موجود" := by
  obtain ⟨h1, _, _, h4, _⟩ := delete_twice "/app" [sampleDoc, slashImageDoc] serverFs sampleDoc
    (by decide) (by decide)
  exact ⟨h1.trans (by decide), by decide, h4⟩

/-- C9 refuted as stated: the stored item has an image URL on the deployed
host that stops at the uploads directory; the first delete of its id is
answered with status 500, not with success. -/
theorem first_delete_can_fail :
    slashImageDoc ∈ [sampleDoc, slashImageDoc] ∧
    (deletePortfolio "/app" [sampleDoc, slashImageDoc] serverFs slashImageDoc._id.toHex).1.status
      = 500 ∧
    (deletePortfolio "/app" [sampleDoc, slashImageDoc] serverFs slashImageDoc._id.toHex).2.1
      = [sampleDoc] := by
  decide

/-- C4 (as the code has it): a file whose lower-cased extension contains none
of `jpeg`, `jpg`, `png`, `gif`, `webp` is rejected by the filter whatever its
content type, and the upload request is answered by the error middleware with
status 500; nothing is stored. -/
theorem upload_rejects_foreign_extension (cfg : Config) (now rnd : Nat) (fs : FileSystem)
    (f : UploadFile) (h : allowedTypesTest (jsLower (pathExtname f.originalname)) = false) :
    fileFilter f = false ∧
    uploadRoute cfg now rnd fs (some f) = (resError 500 "حدث خطأ في الخادم", fs) := by
  have hf : fileFilter f = false := by simp [fileFilter, h]
  exact ⟨hf, by simp [uploadRoute, hf]⟩

theorem upload_rejects_foreign_extension_witness :
    allowedTypesTest (jsLower (pathExtname "notes.TXT")) = false ∧
    fileFilter ⟨"notes.TXT", "image/png", 100⟩ = false ∧
    uploadRoute ⟨"/app", none, "4000"⟩ 1700000000000 7 serverFs
      (some ⟨"notes.TXT", "image/png", 100⟩) = (resError 500 "حدث خطأ في الخادم", serverFs) :=
  ⟨by decide, upload_rejects_foreign_extension ⟨"/app", none, "4000"⟩ 1700000000000 7 serverFs
    ⟨"notes.TXT", "image/png", 100⟩ (by decide)⟩

/-- C4 refuted as stated: `a.txt` has the extension `txt`, outside the five,
and the upload is answered with status 500, not 400; `a.pngx` has the
extension `pngx`, outside the five, and with content type `image/png` the
filter accepts it and the upload is answered with status 200. -/
theorem upload_foreign_extension_counterexample :
    ((jsLower (pathExtname "a.txt")).drop 1 ∉ ["jpg", "jpeg", "png", "gif", "webp"] ∧
      (uploadRoute ⟨"/app", none, "4000"⟩ 17 7 serverFs
        (some ⟨"a.txt", "image/png", 100⟩)).1.status = 500) ∧
    ((jsLower (pathExtname "a.pngx")).drop 1 ∉ ["jpg", "jpeg", "png", "gif", "webp"] ∧
      fileFilter ⟨"a.pngx", "image/png", 100⟩ = true ∧
      (uploadRoute ⟨"/app", none, "4000"⟩ 17 7 serverFs
        (some ⟨"a.pngx", "image/png", 100⟩)).1.status = 200) := by
  decide

/-- C8: with unique keys, the settings read is this function of key and
store: the stored value when a setting with the key is stored; otherwise
`admin` for `adminUsername`, `admin123` for `adminPassword`, and the 404 error
response for every other key. -/
theorem getSetting_spec (store : List Setting) (key : String)
    (hnd : (store.map (fun s => s.key)).Nodup) :
    (∀ s ∈ store, s.key = key → getSetting store key = resJson [("value", optJ s.value)]) ∧
    ((∀ s ∈ store, s.key ≠ key) →
      (key = "adminUsername" → getSetting store key = resJson [("value", .str "admin")]) ∧
      (key = "adminPassword" → getSetting store key = resJson [("value", .str "admin123")]) ∧
      (key ≠ "adminUsername" → key ≠ "adminPassword" →
        getSetting store key = resError 404 "الإعداد غير موجود")) := by
  constructor
  · intro s hs hk
    have h := find_of_mem_nodup (fun s : Setting => s.key) store s hnd hs
    simp only [hk] at h
    simp [getSetting, h]
  · intro hno
    have h : store.find? (fun s => decide (s.key = key)) = none := by
      rw [List.find?_eq_none]
      intro x hx
      simpa using hno x hx
    refine ⟨?_, ?_, ?_⟩
    · intro hk
      subst hk
      simp only [getSetting, h]
      rfl
    · intro hk
      subst hk
      simp only [getSetting, h]
      decide
    · intro h1 h2
      simp [getSetting, h, h1, h2]

theorem getSetting_spec_witness :
    getSetting sampleSettings "adminUsername" = resJson [("value", .str "root")] ∧
    getSetting sampleSettings "adminPassword" = resJson [("value", .str "admin123")] ∧
    getSetting sampleSettings "logo" = resError 404 "الإعداد غير موجود" ∧
    getSetting [] "adminUsername" = resJson [("value", .str "admin")] := by
  obtain ⟨h1, h2⟩ := getSetting_spec sampleSettings "adminUsername" (by decide)
  obtain ⟨_, h3⟩ := getSetting_spec sampleSettings "adminPassword" (by decide)
  obtain ⟨_, h4⟩ := getSetting_spec sampleSettings "logo" (by decide)
  obtain ⟨_, h5⟩ := getSetting_spec [] "adminUsername" (by decide)
  exact ⟨h1 ⟨"adminUsername", some "root"⟩ (by decide) rfl, (h3 (by decide)).2.1 rfl,
    (h4 (by decide)).2.2 (by decide) (by decide), (h5 (by decide)).1 rfl⟩

theorem markRead_of_find (store : List MessageDoc) (id : String) (oid : ObjectId)
    (m : MessageDoc) (hid : castObjectId id = some oid) (hm : findMessage store oid = some m) :
    markRead store id =
      (resJson [("message", .str "تم تحديث حالة القراءة"), ("id", .str id)],
        (updateFirst (fun x : MessageDoc => decide (x._id = oid))
          (fun x => { x with read := some true }) store).2) := by
  have h1 := updateFirst_fst (fun x : MessageDoc => decide (x._id = oid))
    (fun x => { x with read := some true }) store
  unfold findMessage at hm
  rw [hm] at h1
  simp only [markRead, hid]
  generalize updateFirst (fun x : MessageDoc => decide (x._id = oid))
    (fun x => { x with read := some true }) store = r at h1
  obtain ⟨r1, r2⟩ := r
  simp only [Option.map_some'] at h1
  subst h1
  rfl

theorem markRead_of_missing (store : List MessageDoc) (id : String) (oid : ObjectId)
    (hid : castObjectId id = some oid) (hm : findMessage store oid = none) :
    markRead store id = (resError 404 "الرسالة غير موجودة", store) := by
  have h1 := updateFirst_fst (fun x : MessageDoc => decide (x._id = oid))
    (fun x => { x with read := some true }) store
  unfold findMessage at hm
  rw [hm] at h1
  simp only [markRead, hid]
  generalize updateFirst (fun x : MessageDoc => decide (x._id = oid))
    (fun x => { x with read := some true }) store = r at h1
  obtain ⟨r1, r2⟩ := r
  simp only [Option.map_none'] at h1
  subst h1
  rfl

theorem updateFirst_fixed {α : Type} (p : α → Bool) (f : α → α) (l : List α) (m : α)
    (hm : l.find? p = some m) (hf : f m = m) : (updateFirst p f l).2 = l := by
  induction l with
  | nil => rfl
  | cons x xs ih =>
    by_cases hx : p x = true
    · simp [hx] at hm
      subst hm
      simp [updateFirst, hx, hf]
    · simp [hx] at hm
      simp [updateFirst, hx, ih hm]

/-- Marking an already read message changes nothing and succeeds. -/
theorem markRead_fixed (store : List MessageDoc) (id : String) (oid : ObjectId)
    (m : MessageDoc) (hid : castObjectId id = some oid) (hm : findMessage store oid = some m)
    (hr : m.read = some true) :
    markRead store id =
      (resJson [("message", .str "تم تحديث حالة القراءة"), ("id", .str id)], store) := by
  rw [markRead_of_find store id oid m hid hm]
  have hfix : ∀ x : MessageDoc, x.read = some true → { x with read := some true } = x := by
    intro x hx
    cases x
    simp at hx
    simp [hx]
  unfold findMessage at hm
  rw [updateFirst_fixed _ _ store m hm (hfix m hr)]

theorem createMessage_store (env : MsgEnv) (store : List MessageDoc) (b : MessageBody) :
    (createMessage env store b).2 = store ∨
    ∃ d, (createMessage env store b).2 = store ++ [d] := by
  unfold createMessage
  split
  · exact Or.inl rfl
  · split
    · exact Or.inr ⟨_, rfl⟩
    · exact Or.inl rfl

/-- No message route turns a read message back: a stored message that is
read is, after any request, either gone or stored unchanged. -/
theorem read_never_reset (env : MsgEnv) (iso : Nat → String) (req : MsgRequest)
    (s : List MessageDoc) (x : MessageDoc) (hnd : (s.map (fun m => m._id)).Nodup)
    (hx : findMessage s x._id = some x) (hr : x.read = some true) :
    findMessage (handleMessage env iso s req).2 x._id = none ∨
    findMessage (handleMessage env iso s req).2 x._id = some x := by
  cases req with
  | list => exact Or.inr hx
  | create b =>
    right
    rcases createMessage_store env s b with h | ⟨d, h⟩
    · simp only [handleMessage, h, hx]
    · simp only [handleMessage, h]
      unfold findMessage at *
      simp [List.find?_append, hx]
  | markRead id =>
    right
    simp only [handleMessage]
    cases hc : castObjectId id with
    | none => simpa [markRead, hc] using hx
    | some o =>
      cases hf : findMessage s o with
      | none => rw [markRead_of_missing s id o hc hf]; exact hx
      | some m =>
        rw [markRead_of_find s id o m hc hf]
        by_cases ho : o = x._id
        · subst ho
          have hmx : m = x := Option.some.inj (hf.symm.trans hx)
          subst hmx
          have hfix : ({ m with read := some true } : MessageDoc) = m := by
            cases m
            simp at hr
            simp [hr]
          unfold findMessage at hf
          rw [updateFirst_fixed (fun y : MessageDoc => decide (y._id = m._id))
            (fun y => { y with read := some true }) s m hf hfix]
          exact hx
        · unfold findMessage at *
          simp only
          rw [updateFirst_find_other]
          · exact hx
          · intro y hy
            simp at hy
            simp [hy, ho]
  | delete id =>
    simp only [handleMessage]
    cases hc : castObjectId id with
    | none => right; simpa [deleteMessage, hc] using hx
    | some o =>
      have h1 := removeFirst_fst (fun m : MessageDoc => decide (m._id = o)) s
      have h2 := removeFirst_snd (fun m : MessageDoc => decide (m._id = o)) s
      have h3 : o ≠ x._id → findMessage (removeFirst (fun m : MessageDoc => decide (m._id = o)) s).2
          x._id = some x := by
        intro ho
        unfold findMessage at *
        rw [removeFirst_find_other]
        · exact hx
        · intro z hz
          simp at hz
          simp [hz, ho]
      simp only [deleteMessage, hc]
      generalize removeFirst (fun m : MessageDoc => decide (m._id = o)) s = r at h1 h2 h3
      obtain ⟨r1, r2⟩ := r
      cases r1 with
      | none => right; exact hx
      | some y =>
        simp only at h2
        by_cases ho : o = x._id
        · left
          subst ho
          subst h2
          exact find_eraseP_none (fun m : MessageDoc => m._id) s x._id hnd
        · right
          exact h3 ho
  | deleteAll => left; rfl

/-- C10: for a stored message, one mark-read request succeeds and leaves the
message with `read = true`, every other field of it and every other message as
they were; every further mark-read request of that id succeeds with status 200
and leaves the whole collection unchanged; and no request to a message route
sets `read` back: a read message is afterwards either deleted or stored
unchanged. -/
theorem markRead_monotone (store : List MessageDoc) (id : String) (oid : ObjectId)
    (m : MessageDoc) (hid : castObjectId id = some oid) (hm : findMessage store oid = some m) :
    (markRead store id).1.status = 200 ∧
    findMessage (markRead store id).2 oid = some { m with read := some true } ∧
    (∀ o, o ≠ oid → findMessage (markRead store id).2 o = findMessage store o) ∧
    (∀ n : Nat, ((fun s => (markRead s id).2)^[n]) (markRead store id).2 =
      (markRead store id).2) ∧
    (markRead (markRead store id).2 id).1.status = 200 ∧
    (∀ (env : MsgEnv) (iso : Nat → String) (req : MsgRequest) (s : List MessageDoc)
        (x : MessageDoc), (s.map (fun y => y._id)).Nodup → findMessage s x._id = some x →
        x.read = some true →
        findMessage (handleMessage env iso s req).2 x._id = none ∨
        findMessage (handleMessage env iso s req).2 x._id = some x) := by
  have h0 := markRead_of_find store id oid m hid hm
  have h1 : findMessage (markRead store id).2 oid = some { m with read := some true } := by
    rw [h0]
    unfold findMessage at *
    simp only
    rw [updateFirst_find _ _ (fun x hx => by simpa using hx), hm]
    rfl
  have h2 := markRead_fixed (markRead store id).2 id oid _ hid h1 rfl
  refine ⟨by rw [h0]; rfl, h1, ?_, ?_, by rw [h2]; rfl, ?_⟩
  · intro o ho
    rw [h0]
    unfold findMessage
    simp only
    rw [updateFirst_find_other]
    intro y hy
    simp at hy
    simp [hy, Ne.symm ho]
  · intro n
    induction n with
    | zero => rfl
    | succ k ih => rw [Function.iterate_succ_apply', ih, h2]
  · intro env iso req s x hnd hx hr
    exact read_never_reset env iso req s x hnd hx hr

theorem markRead_monotone_witness :
    (markRead [sampleMessage] "111111111111111111111111").1.status = 200 ∧
    findMessage (markRead [sampleMessage] "111111111111111111111111").2 sampleId =
      some { sampleMessage with read := some true } ∧
    (markRead (markRead [sampleMessage] "111111111111111111111111").2
      "111111111111111111111111").1.status = 200 := by
  obtain ⟨h1, h2, _, _, h5, _⟩ := markRead_monotone [sampleMessage] "111111111111111111111111"
    sampleId sampleMessage (by decide) (by decide)
  exact ⟨h1, h2, h5⟩

/-! ## Uploaded images and their removal -/

theorem startsWith_append (p s : List Char) : startsWith (p ++ s) p = true := by
  induction p with
  | nil => cases s <;> rfl
  | cons c cs ih => simp [startsWith, ih]

theorem includesL_of_startsWith (s sub : List Char) (h : startsWith s sub = true) :
    includesL s sub = true := by
  cases s with
  | nil =>
    cases sub with
    | nil => rfl
    | cons c cs => simp [startsWith] at h
  | cons c cs => simp [includesL, h]

theorem includesL_append_left (a s sub : List Char) (h : includesL s sub = true) :
    includesL (a ++ s) sub = true := by
  induction a with
  | nil => simpa using h
  | cons c cs ih => simp [includesL, ih]

/-- Every URL that the upload handler returns is recognised by the delete
handler as locally hosted, whatever the base URL and the file name. -/
theorem upload_url_is_local (cfg : Config) (now rnd : Nat) (f : UploadFile) :
    isLocalImage (some (baseUrl cfg ++ "/uploads/" ++ storageFilename now rnd f)) = true := by
  have hinc : jsIncludes (baseUrl cfg ++ "/uploads/" ++ storageFilename now rnd f) "/uploads/"
      = true := by
    unfold jsIncludes
    simp only [String.data_append, List.append_assoc]
    exact includesL_append_left _ _ _ (includesL_of_startsWith _ _ (startsWith_append _ _))
  have hne : baseUrl cfg ++ "/uploads/" ++ storageFilename now rnd f ≠ "" := by
    intro h
    have := congrArg String.length h
    simp [String.length_append] at this
    exact absurd this.1.2 (by decide)
  simp [isLocalImage, hinc, hne]

theorem replaceFirstL_append (c : Char) (cs rep rest : List Char) :
    replaceFirstL (c :: cs) rep ((c :: cs) ++ rest) = rep ++ rest := by
  have hs := startsWith_append (c :: cs) rest
  rw [List.cons_append] at hs ⊢
  rw [replaceFirstL, if_pos hs, ← List.cons_append, List.drop_left]

/-- Stripping the host literal from a URL that begins with it leaves the rest. -/
theorem jsReplace_renderHost (rest : String) :
    jsReplace (renderHost ++ rest) renderHost "" = rest := by
  unfold jsReplace
  have hd : renderHost.data = 'h' :: renderHost.data.tail := by decide
  rw [String.data_append, hd, replaceFirstL_append]
  rfl

/-- On the deployed host the delete handler joins the server directory with
the part of the uploaded URL that follows the host. -/
theorem imagePath_on_render_host (dirname filename : String) :
    imagePathOf dirname (renderHost ++ "/uploads/" ++ filename) =
      pathJoin dirname ("/uploads/" ++ filename) := by
  unfold imagePathOf
  rw [String.append_assoc, jsReplace_renderHost]

/-- With `BASE_URL` set to the deployed host, the path the delete handler
computes for the sample upload is the path where the upload was stored, and
the delete removes the file. -/
theorem delete_removes_upload_on_render_host :
    (uploadRoute renderConfig 1700000000000 123456789 serverFs (some samplePhoto)).2 =
      ⟨"/app/uploads/product-1700000000000-123456789.png", false⟩ :: serverFs ∧
    (uploadRoute renderConfig 1700000000000 123456789 serverFs (some samplePhoto)).1.body.field
      "url" = optJ renderUploadDoc.image ∧
    imagePathOf "/app" (renderUploadDoc.image.getD "") =
      "/app/uploads/product-1700000000000-123456789.png" ∧
    (deletePortfolio "/app" [renderUploadDoc]
      (uploadRoute renderConfig 1700000000000 123456789 serverFs (some samplePhoto)).2
      "111111111111111111111111").2.2 = serverFs := by
  decide

/-- C11 on the failing input: with `BASE_URL` unset the upload of `photo.png`
is stored at `/app/uploads/product-1700000000000-123456789.png` and returned
as `http://localhost:4000/uploads/product-1700000000000-123456789.png`; for an
item with that image the delete handler recognises local hosting but computes
`/app/http:/localhost:4000/uploads/product-1700000000000-123456789.png`, a
path that does not exist, so it answers with success and leaves the uploaded
file in place. -/
theorem delete_misses_upload_on_other_host :
    (uploadRoute localConfig 1700000000000 123456789 serverFs (some samplePhoto)).2 =
      ⟨"/app/uploads/product-1700000000000-123456789.png", false⟩ :: serverFs ∧
    (uploadRoute localConfig 1700000000000 123456789 serverFs (some samplePhoto)).1.body.field
      "url" = optJ localUploadDoc.image ∧
    isLocalImage localUploadDoc.image = true ∧
    imagePathOf "/app" (localUploadDoc.image.getD "") =
      "/app/http:/localhost:4000/uploads/product-1700000000000-123456789.png" ∧
    imagePathOf "/app" (localUploadDoc.image.getD "") ≠
      pathJoin (uploadsDir localConfig) (storageFilename 1700000000000 123456789 samplePhoto) ∧
    (deletePortfolio "/app" [localUploadDoc]
      (uploadRoute localConfig 1700000000000 123456789 serverFs (some samplePhoto)).2
      "111111111111111111111111").1.status = 200 ∧
    (deletePortfolio "/app" [localUploadDoc]
      (uploadRoute localConfig 1700000000000 123456789 serverFs (some samplePhoto)).2
      "111111111111111111111111").2.2 =
      ⟨"/app/uploads/product-1700000000000-123456789.png", false⟩ :: serverFs := by
  decide

end AlMadina
